import Mathlib

/-!
Verification of the `ordo` ranked-choice voting server (`src/main.rs`).

The embedding models the room/voter data persisted in SQLite as explicit
Lean structures, the warp handlers as pure functions from a `Store` (plus
the request parameters) to an `Except Rejection` outcome together with the
list of events the handler publishes, and the tally of
`old_rooms::end_vote` as a fold over an insertion-ordered association list
(a deterministic model of Rust's `HashMap` accumulation; Rust's real
`HashMap` iterates in an unspecified order, which the relevant theorems
take into account in their statements).  Fresh identifiers produced by
SQLite's rowid allocator and by `utils::generate_ulid` are passed to the
operations as explicit parameters.
-/

namespace Ordo

/-- Lexicographic comparison of char lists, mirroring the `Ord` instance that
`Vec::<String>::sort` uses in Rust (byte-lexicographic, which on valid UTF-8
coincides with code-point-lexicographic order). -/
def charListLt : List Char → List Char → Bool
  | [], [] => false
  | [], _ :: _ => true
  | _ :: _, [] => false
  | a :: as, b :: bs => if a < b then true else if b < a then false else charListLt as bs

/-- The order on strings used by `body.options.sort()` and `voter_options.sort()`
in the source: `a` is at most `b` when `b` is not strictly below `a`. -/
def strLe (a b : String) : Prop := charListLt b.data a.data = false

instance : DecidableRel strLe := fun a b =>
  inferInstanceAs (Decidable (charListLt b.data a.data = false))

/-- Model of `Vec::<String>::sort()`: a stable sort under `strLe`. -/
def sortStrings (l : List String) : List String := List.insertionSort strLe l

/-- The rejection values of the `rejections` module, together with the
built-in warp rejections that `handle_rejection` inspects (`is_not_found`,
`BodyDeserializeError`, `MethodNotAllowed`). -/
inductive Rejection where
  | NotAnAdmin
  | RoomNotFound
  | VoterNotFound
  | VoterNotInRoom
  | VotersNotFound
  | OptionsMismatch
  | CouldNotGetVotes
  | CouldNotGetCount
  | CouldNotStartVote
  | CouldNotSendCount
  | CouldNotCountVotes
  | CouldNotCreateVote
  | CouldNotApproveVoter
  | CouldNotCreateNewRoom
  | CouldNotCreateNewVoter
  | CouldNotGetVoterCountTx
  | CouldNotGetVotersStream
  | CouldNotDeserilizeOptions
  | CouldNotGetVoterCountStream
  | UnknownOptions
  | NotVoter
  | NotRoomAdmin
  | EmptyName
  | NoOptions
  | EmptyOption
  | InternalServerError
  | NotFound
  | BodyDeserializeError
  | MethodNotAllowed
  deriving DecidableEq

/-- `rejections::handle_rejection`: maps a rejection to the HTTP status code and
message of the rendered error page.  Faithful to the source `if`/`else if`
chain: `InternalServerError`, `UnknownOptions`, `NotVoter`, `NotRoomAdmin`,
`EmptyName`, `NoOptions` and `EmptyOption` have no arm of their own and fall
through to the final `else`, surfacing as `500 UNHANDLED_REJECTION`. -/
def handle_rejection : Rejection → Nat × String
  | .NotFound => (404, "NOT_FOUND")
  | .NotAnAdmin => (400, "NOT_AN_ADMIN")
  | .RoomNotFound => (400, "ROOM_NOT_FOUND")
  | .VoterNotInRoom => (400, "VOTER_NOT_IN_ROOM")
  | .VoterNotFound => (400, "VOTER_NOT_FOUND")
  | .VotersNotFound => (400, "VOTERS_NOT_FOUND")
  | .OptionsMismatch => (400, "OPTIONS_MISMATCH")
  | .CouldNotGetVotes => (400, "COULD_NOT_GET_VOTES")
  | .CouldNotGetCount => (400, "COULD_NOT_GET_COUNT")
  | .CouldNotStartVote => (400, "COULD_NOT_START_VOTE")
  | .CouldNotSendCount => (400, "COULD_NOT_SEND_COUNT")
  | .CouldNotCountVotes => (400, "COULD_NOT_COUNT_VOTES")
  | .CouldNotCreateVote => (400, "COULD_NOT_CREATE_VOTE")
  | .CouldNotApproveVoter => (400, "COULD_NOT_APPROVE_VOTER")
  | .CouldNotCreateNewRoom => (400, "COULD_NOT_CREATE_NEW_ROOM")
  | .CouldNotCreateNewVoter => (400, "COULD_NOT_CREATE_NEW_VOTER")
  | .CouldNotGetVoterCountTx => (400, "COULD_NOT_GET_VOTER_COUNT_TRANSMITTER")
  | .CouldNotGetVotersStream => (400, "COULD_NOT_GET_VOTERS_STREAM")
  | .CouldNotDeserilizeOptions => (400, "COULD_NOT_DESERILIZE_OPTIONS")
  | .CouldNotGetVoterCountStream => (400, "COULD_NOT_GET_VOTER_COUNT_STREAM")
  | .BodyDeserializeError => (400, "BAD_REQUEST")
  | .MethodNotAllowed => (405, "METHOD_NOT_ALLOWED")
  | _ => (500, "UNHANDLED_REJECTION")

/-- A row of the `new_rooms` table.  `status` is `0` for Open and `1` for
Voting (the source never writes any other value). -/
structure Room where
  id : Int
  name : String
  options : List String
  admin_code : String
  status : Int
  deriving DecidableEq

/-- A row of the `new_voters` table.  `options` is the stored ballot
(`NULL` when the voter has not voted). -/
structure Voter where
  id : Int
  room_id : Int
  voter_code : String
  approved : Bool
  options : Option (List String)
  deriving DecidableEq

/-- The durable state: the `new_rooms` and `new_voters` tables. -/
structure Store where
  rooms : List Room
  voters : List Voter
  deriving DecidableEq

instance {ε α : Type} [DecidableEq ε] [DecidableEq α] : DecidableEq (Except ε α) :=
  fun a b =>
    match a, b with
    | .error x, .error y =>
      if h : x = y then .isTrue (by rw [h]) else .isFalse (fun hh => h (by cases hh; rfl))
    | .error _, .ok _ => .isFalse (fun hh => by cases hh)
    | .ok _, .error _ => .isFalse (fun hh => by cases hh)
    | .ok x, .ok y =>
      if h : x = y then .isTrue (by rw [h]) else .isFalse (fun hh => h (by cases hh; rfl))

/-- The `events::RoomEvents` enum, constructor for constructor.  (There is no
`VoteStartable` or `VoteEndable` variant in the source.) -/
inductive RoomEvents where
  | NewVoter (voter_id : Int)
  | NewVoterCount (count : Int)
  | VoterApproved (voter_id : Int)
  | VoteStarted (options : List String)
  | VoteEnded
  | NewVote (voter_id : Int)
  | NewVoteCount (count : Int)
  deriving DecidableEq

end Ordo

namespace Ordo.names

/-- SSE event name constant from the `names` module. -/
def VOTER_COUNT_EVENT : String := "voter-count"

/-- SSE event name constant from the `names` module. -/
def NEW_VOTER_EVENT : String := "voter"

/-- SSE event name constant from the `names` module. -/
def VOTE_STARTED_EVENT : String := "vote-started"

/-- SSE event name constant from the `names` module. -/
def VOTE_COUNT_EVENT : String := "vote-count"

/-- SSE event name constant from the `names` module. -/
def PING_EVENT : String := "ping"

/-- Per-voter SSE event name `voter-approved:{voter_id}`. -/
def voter_approved_event (voter_id : Int) : String :=
  "voter-approved:" ++ toString voter_id

/-- Per-voter SSE event name `vote:{voter_id}`. -/
def vote_event (voter_id : Int) : String :=
  "vote:" ++ toString voter_id

end Ordo.names

namespace Ordo

/-- `SELECT .. FROM new_rooms WHERE id = ?1` (first matching row). -/
def findRoom (s : Store) (room_id : Int) : Option Room :=
  s.rooms.find? (fun r => r.id == room_id)

/-- `SELECT .. FROM new_rooms WHERE id = ?1 AND status = 0`. -/
def findOpenRoom (s : Store) (room_id : Int) : Option Room :=
  s.rooms.find? (fun r => r.id == room_id && r.status == 0)

/-- `SELECT .. FROM new_rooms WHERE id = ?1 AND status = 1`. -/
def findVotingRoom (s : Store) (room_id : Int) : Option Room :=
  s.rooms.find? (fun r => r.id == room_id && r.status == 1)

/-- `SELECT .. FROM new_voters WHERE id = ?1`. -/
def findVoter (s : Store) (voter_id : Int) : Option Voter :=
  s.voters.find? (fun v => v.id == voter_id)

/-- `SELECT count(id) FROM new_voters WHERE room_id = ?1`. -/
def countVoters (s : Store) (room_id : Int) : Int :=
  ((s.voters.filter (fun v => v.room_id == room_id)).length : Int)

/-- `SELECT count(id) FROM new_voters WHERE room_id = ?1 AND options NOT NULL`. -/
def countBallots (s : Store) (room_id : Int) : Int :=
  ((s.voters.filter (fun v => v.room_id == room_id && v.options.isSome)).length : Int)

/-- Number of approved voters of a room (the quantity whose zero-to-one
transition the spec's `VoteStartable` story is about). -/
def approvedCount (s : Store) (room_id : Int) : Nat :=
  (s.voters.filter (fun v => v.room_id == room_id && v.approved)).length

/-- The per-room channel registry `events::Broadcasters`, abstracted to the
set of room ids that currently own a broadcast channel.  The source offers
`send_event` and `get_stream`, both of which lazily insert a channel; no
method ever removes one. -/
abbrev Channels := List Int

/-- Lazy channel creation used by both `send_event` and `get_stream`. -/
def ensureChannel (ch : Channels) (room_id : Int) : Channels :=
  if room_id ∈ ch then ch else ch ++ [room_id]

/-- Outcome of `rooms::create_room`, net of HTML rendering: the updated
store, the admin capability secret placed in the cookie, and the one-shot
expiry task the handler spawns (a delay in seconds and the room it will
delete). -/
structure CreateRoomResult where
  store : Store
  admin_code : String
  expiry_delay_secs : Nat
  expiry_room_id : Int
  deriving DecidableEq

/-- The fixed TTL passed to `tokio::time::sleep` by `create_room`. -/
def expiry_ttl_secs : Nat := 3600

/-- `rooms::create_room`: validates name/options, sorts the options in
place, stores the room with `status = 0`, and schedules the one-shot expiry
task.  `fresh_room_id` models `last_insert_rowid()`, `admin_code` models
`utils::generate_ulid()`. -/
def create_room (s : Store) (name : String) (options : List String)
    (fresh_room_id : Int) (admin_code : String) : Except Rejection CreateRoomResult :=
  if name.isEmpty then .error .EmptyName
  else if options.isEmpty then .error .NoOptions
  else if options.any (fun o => o.isEmpty) then .error .EmptyOption
  else
    let room : Room :=
      { id := fresh_room_id, name := name, options := sortStrings options,
        admin_code := admin_code, status := 0 }
    .ok { store := { s with rooms := s.rooms ++ [room] },
          admin_code := admin_code,
          expiry_delay_secs := expiry_ttl_secs,
          expiry_room_id := fresh_room_id }

/-- The body of the task `create_room` spawns: after the sleep it runs one
transaction deleting the room's voters and the room itself, regardless of
the room's status.  The task captures only the database pool; it never
touches the `Broadcasters` registry, so the channel component is returned
unchanged. -/
def expire_action (s : Store) (ch : Channels) (room_id : Int) : Store × Channels :=
  ({ rooms := s.rooms.filter (fun r => !(r.id == room_id)),
     voters := s.voters.filter (fun v => !(v.room_id == room_id)) }, ch)

/-- The Voter row inserted by `INSERT INTO new_voters (voter_code, room_id)`:
`approved` defaults to false and the ballot to `NULL`. -/
def newVoter (voter_id room_id : Int) (voter_code : String) : Voter :=
  { id := voter_id, room_id := room_id, voter_code := voter_code,
    approved := false, options := none }

/-- Effect of inserting a voter row. -/
def addVoter (s : Store) (voter : Voter) : Store := { s with voters := s.voters ++ [voter] }

/-- `rooms::join_room` (the POST handler): looks the room up by id alone
(no status filter), inserts a new unapproved voter, and publishes
`NewVoterCount` then `NewVoter` to the room's channel.  `fresh_voter_id`
models `last_insert_rowid()`, `voter_code` models `generate_ulid()`. -/
def join_room (s : Store) (room_id : Int) (fresh_voter_id : Int) (voter_code : String) :
    Except Rejection (Store × List (Int × RoomEvents)) :=
  match findRoom s room_id with
  | none => .error .InternalServerError
  | some _ =>
    let s' : Store := addVoter s (newVoter fresh_voter_id room_id voter_code)
    .ok (s', [(room_id, .NewVoterCount (countVoters s' room_id)),
              (room_id, .NewVoter fresh_voter_id)])

/-- Effect of `UPDATE new_rooms SET status = 1 WHERE id = ?1`. -/
def setVotingStatus (s : Store) (room_id : Int) : Store :=
  { s with rooms := s.rooms.map (fun r => if r.id == room_id then { r with status := 1 } else r) }

/-- Effect of `UPDATE new_voters SET approved = true WHERE id = ?1`. -/
def setApproved (s : Store) (voter_id : Int) : Store :=
  { s with voters := s.voters.map (fun v => if v.id == voter_id then { v with approved := true } else v) }

/-- Effect of `UPDATE new_voters SET options = ?1 WHERE id = ?2`. -/
def setBallot (s : Store) (voter_id : Int) (body : List String) : Store :=
  { s with voters := s.voters.map (fun v => if v.id == voter_id then { v with options := some body } else v) }

/-- `rooms::start_vote`: requires a row matching `id = ?1 AND status = 0`
(a missing row is surfaced as `InternalServerError`), then compares the
admin cookie, sets `status = 1`, and publishes `VoteStarted(options)`. -/
def start_vote (s : Store) (room_id : Int) (admin_code : String) :
    Except Rejection (Store × List (Int × RoomEvents)) :=
  match findOpenRoom s room_id with
  | none => .error .InternalServerError
  | some room =>
    if admin_code ≠ room.admin_code then .error .NotAnAdmin
    else .ok (setVotingStatus s room_id, [(room_id, .VoteStarted room.options)])

/-- `voters::approve_voter`: resolves the voter's room, compares the admin
cookie, sets `approved = true` unconditionally, and publishes
`VoterApproved(voter_id)`.  No other event is published. -/
def approve_voter (s : Store) (voter_id : Int) (admin_code : String) :
    Except Rejection (Store × List (Int × RoomEvents)) :=
  match (findVoter s voter_id).bind (fun v => findRoom s v.room_id) with
  | none => .error .InternalServerError
  | some room =>
    if admin_code ≠ room.admin_code then .error .NotAnAdmin
    else .ok (setApproved s voter_id, [(room.id, .VoterApproved voter_id)])

/-- `voters::vote`: checks the voter secret, requires the voter's room to
match `status = 1`, compares the sorted ballot against the stored options,
then runs the `UPDATE` storing the ballot.  The source discards the
`UPDATE`'s result (`let _ = ...`), so when the store write fails —
modelled by `update_succeeds = false` — execution still continues to the
spawned notification task and the success response.  Note that the
voter's `approved` flag is fetched but never consulted. -/
def vote (s : Store) (voter_id : Int) (voter_code : String) (body_options : List String)
    (update_succeeds : Bool) : Except Rejection (Store × List (Int × RoomEvents)) :=
  match findVoter s voter_id with
  | none => .error .InternalServerError
  | some voter =>
    if voter_code ≠ voter.voter_code then .error .NotVoter
    else
      match findVotingRoom s voter.room_id with
      | none => .error .InternalServerError
      | some room =>
        if room.options ≠ sortStrings body_options then .error .UnknownOptions
        else
          let s' : Store := if update_succeeds then setBallot s voter_id body_options else s
          .ok (s', [(voter.room_id, .NewVote voter_id),
                    (voter.room_id, .NewVoteCount (countBallots s' voter.room_id))])

/-- Admin classification in `events::handler`: when an admin cookie is
presented, the room is fetched by id (a missing room is an internal
error) and the subscriber is `Some(room.id)` exactly when the secret
matches; otherwise `None`. -/
def classify_admin (s : Store) (room_id : Int) (admin_code : Option String) :
    Except Rejection (Option Int) :=
  match admin_code with
  | some code =>
    match findRoom s room_id with
    | none => .error .InternalServerError
    | some room => .ok (if code == room.admin_code then some room.id else none)
  | none => .ok none

/-- Voter classification in `events::handler`: when a voter cookie is
presented, the voter is looked up by secret (`fetch_optional`), yielding
`Some(id)` on a match and `None` otherwise. -/
def classify_voter (s : Store) (voter_code : Option String) : Except Rejection (Option Int) :=
  match voter_code with
  | some code => .ok ((s.voters.find? (fun v => v.voter_code == code)).map (fun v => v.id))
  | none => .ok none

/-- The projection `match (event, admin, voter)` of `events::handler`,
abstracted to the SSE event name each arm produces (the HTML payloads are
presentation, out of scope).  Every tuple not matched by a listed arm —
including `(Some(..), Some(..))` subscribers — falls through to the
wildcard arm and yields the `ping` heartbeat. -/
def project (event : RoomEvents) (admin : Option Int) (voter : Option Int) : String :=
  match event, admin, voter with
  | .NewVoterCount _, some _, none => names.VOTER_COUNT_EVENT
  | .NewVoterCount _, none, some _ => names.VOTER_COUNT_EVENT
  | .NewVoter _, some _, none => names.NEW_VOTER_EVENT
  | .VoterApproved vid, some _, none => names.voter_approved_event vid
  | .VoterApproved vid, none, some listener =>
    if vid == listener then names.voter_approved_event vid else names.PING_EVENT
  | .VoteStarted _, none, some _ => names.VOTE_STARTED_EVENT
  | .NewVote vid, some _, none => names.vote_event vid
  | .NewVoteCount _, some _, none => names.VOTE_COUNT_EVENT
  | _, _, _ => names.PING_EVENT

/-- One `map.entry(choice).and_modify(|s| *s += score).or_insert(score)`
step of the tally of `old_rooms::end_vote`, on the insertion-ordered
association-list model of the `HashMap`: the first entry with the key is
updated in place, a missing key is appended. -/
def addScore (m : List (String × Nat)) (choice : String) (score : Nat) : List (String × Nat) :=
  match m with
  | [] => [(choice, score)]
  | (c, s) :: rest =>
    if c == choice then (c, s + score) :: rest
    else (c, s) :: addScore rest choice score

/-- The inner fold of `old_rooms::end_vote`: one ballot's
`options.into_iter().enumerate()` pass, awarding `options_len - idx` to the
option at index `idx`. -/
def scoreBallot (m : List (String × Nat)) (ballot : List String) : List (String × Nat) :=
  ballot.enum.foldl (fun m p => addScore m p.2 (ballot.length - p.1)) m

/-- The outer fold of `old_rooms::end_vote` over all stored ballots,
starting from the empty map. -/
def accumScores (ballots : List (List String)) : List (String × Nat) :=
  ballots.foldl scoreBallot []

/-- Comparison used by `scores.sort_by_key(|(_, score)| *score)`. -/
def scoreLe (a b : String × Nat) : Prop := a.2 ≤ b.2

instance : DecidableRel scoreLe := fun a b => inferInstanceAs (Decidable (a.2 ≤ b.2))

instance : IsTotal (String × Nat) scoreLe := ⟨fun a b => Nat.le_total a.2 b.2⟩

instance : IsTrans (String × Nat) scoreLe := ⟨fun _ _ _ => Nat.le_trans⟩

/-- The full tally of `old_rooms::end_vote`: accumulate all ballots into the
map, collect it into a vector, stable-sort ascending by score
(`sort_by_key`), then reverse the whole vector (`scores.reverse()`). -/
def tallyScores (ballots : List (List String)) : List (String × Nat) :=
  (List.insertionSort scoreLe (accumScores ballots)).reverse

/-- Score of `o` in the association-list accumulator, `0` when absent. -/
def lookupScore (o : String) : List (String × Nat) → Nat
  | [] => 0
  | (c, s) :: rest => if c == o then s else lookupScore o rest

/-- Keys of the accumulator, in insertion (first-seen) order. -/
def keysOf (m : List (String × Nat)) : List String := m.map Prod.fst

/-- The 0-indexed rank of an option in a ballot (`idx` in the source's
`enumerate`); the length of the list when absent. -/
def rankOf (o : String) : List String → Nat
  | [] => 0
  | a :: rest => if a == o then 0 else rankOf o rest + 1

/-- Concrete fixture: an Open room with admin secret `adm`. -/
def exRoomOpen : Room :=
  { id := 1, name := "lunch", options := ["A", "B"], admin_code := "adm", status := 0 }

/-- Concrete fixture: the same room in Voting status. -/
def exRoomVoting : Room :=
  { id := 1, name := "lunch", options := ["A", "B"], admin_code := "adm", status := 1 }

/-- Concrete fixture: an unapproved voter of room 1 with secret `v`. -/
def exVoterUnapproved : Voter :=
  { id := 10, room_id := 1, voter_code := "v", approved := false, options := none }

/-- Concrete fixture: a store with a Voting room and one unapproved voter. -/
def exStoreVoting : Store := { rooms := [exRoomVoting], voters := [exVoterUnapproved] }

/-- Concrete fixture: a store with a Voting room and no voters. -/
def exStoreVotingNoVoters : Store := { rooms := [exRoomVoting], voters := [] }

/-- Concrete fixture: a store with an Open room and no voters. -/
def exStoreOpen : Store := { rooms := [exRoomOpen], voters := [] }

/-- Concrete fixture: a store with an Open room and one unapproved voter. -/
def exStoreApprove0 : Store := { rooms := [exRoomOpen], voters := [exVoterUnapproved] }

/-- Concrete fixture: `exStoreApprove0` after the voter has been approved. -/
def exStoreApprove1 : Store :=
  { rooms := [exRoomOpen], voters := [{ exVoterUnapproved with approved := true }] }

/-- Concrete fixture: a voter with id 2 of room 1, used to exercise the
event-stream classification with both secrets presented. -/
def exVoterListener : Voter :=
  { id := 2, room_id := 1, voter_code := "v", approved := false, options := none }

/-- Concrete fixture: a store with an Open room and `exVoterListener`. -/
def exStoreDual : Store := { rooms := [exRoomOpen], voters := [exVoterListener] }

/-- Concrete fixture: the room created by the `C7` witness creation. -/
def exRoomNew : Room :=
  { id := 1, name := "x", options := ["A", "B"], admin_code := "c", status := 0 }

/-- Concrete fixture: the expected result of the `C7` witness creation. -/
def exCreateRes : CreateRoomResult :=
  { store := { rooms := [exRoomOpen, exRoomNew], voters := [] },
    admin_code := "c", expiry_delay_secs := 3600, expiry_room_id := 1 }
end Ordo

namespace Ordo

theorem charListLt_asymm : ∀ {a b : List Char}, charListLt a b = true → charListLt b a = false
  | [], [], h => by simp [charListLt] at h
  | [], _ :: _, _ => by simp [charListLt]
  | _ :: _, [], h => by simp [charListLt] at h
  | a :: as, b :: bs, h => by
    rcases lt_trichotomy a b with hab | hab | hab
    · simp [charListLt, hab, lt_asymm hab]
    · subst hab
      simp only [charListLt, lt_irrefl, if_false] at h ⊢
      exact charListLt_asymm h
    · simp [charListLt, hab, lt_asymm hab] at h

theorem charListLt_cases : ∀ (x z : List Char), charListLt x z = true →
    ∀ y : List Char, charListLt x y = true ∨ charListLt y z = true
  | [], [], h, _ => by simp [charListLt] at h
  | [], _ :: _, _, y => by
    cases y with
    | nil => exact Or.inr (by simp [charListLt])
    | cons c cs => exact Or.inl (by simp [charListLt])
  | _ :: _, [], h, _ => by simp [charListLt] at h
  | a :: as, c :: cs, h, y => by
    cases y with
    | nil => exact Or.inr (by simp [charListLt])
    | cons b bs =>
      rcases lt_trichotomy a b with hab | hab | hab
      · exact Or.inl (by simp [charListLt, hab])
      · subst hab
        rcases lt_trichotomy a c with hac | hac | hac
        · exact Or.inr (by simp [charListLt, hac])
        · subst hac
          simp only [charListLt, lt_irrefl, if_false] at h ⊢
          exact charListLt_cases as cs h bs
        · simp [charListLt, hac, lt_asymm hac] at h
      · rcases lt_trichotomy a c with hac | hac | hac
        · exact Or.inr (by simp [charListLt, lt_trans hab hac])
        · subst hac
          exact Or.inr (by simp [charListLt, hab])
        · simp [charListLt, hac, lt_asymm hac] at h

theorem charListLt_antisymm : ∀ {a b : List Char}, charListLt a b = false →
    charListLt b a = false → a = b
  | [], [], _, _ => rfl
  | [], _ :: _, h, _ => by simp [charListLt] at h
  | _ :: _, [], _, h2 => by simp [charListLt] at h2
  | a :: as, b :: bs, h, h2 => by
    rcases lt_trichotomy a b with hab | hab | hab
    · simp [charListLt, hab] at h
    · subst hab
      simp only [charListLt, lt_irrefl, if_false] at h h2
      rw [charListLt_antisymm h h2]
    · simp [charListLt, hab] at h2

instance : IsTotal String strLe :=
  ⟨fun a b => by
    unfold strLe
    cases hba : charListLt b.data a.data with
    | false => exact Or.inl rfl
    | true => exact Or.inr (charListLt_asymm hba)⟩

instance : IsTrans String strLe :=
  ⟨fun a b c h1 h2 => by
    unfold strLe at h1 h2 ⊢
    cases hca : charListLt c.data a.data with
    | false => rfl
    | true =>
      rcases charListLt_cases _ _ hca b.data with hx | hx
      · rw [h2] at hx; cases hx
      · rw [h1] at hx; cases hx⟩

instance : IsAntisymm String strLe :=
  ⟨fun a b h1 h2 => by
    have hd : a.data = b.data := charListLt_antisymm h2 h1
    cases a; cases b; exact congrArg String.mk hd⟩

theorem sorted_sortStrings (l : List String) : List.Sorted strLe (sortStrings l) :=
  List.sorted_insertionSort strLe l

theorem perm_sortStrings (l : List String) : List.Perm (sortStrings l) l :=
  List.perm_insertionSort strLe l

theorem sortStrings_eq_iff {l opts : List String} (hs : List.Sorted strLe opts) :
    sortStrings l = opts ↔ List.Perm l opts := by
  constructor
  · intro h
    exact h ▸ (perm_sortStrings l).symm
  · intro h
    exact List.eq_of_perm_of_sorted ((perm_sortStrings l).trans h) (sorted_sortStrings l) hs

end Ordo

namespace Ordo

theorem lookupScore_addScore (m : List (String × Nat)) (c : String) (v : Nat) (o : String) :
    lookupScore o (addScore m c v) = lookupScore o m + (if o = c then v else 0) := by
  induction m with
  | nil =>
    by_cases h : c = o
    · subst h
      simp [addScore, lookupScore]
    · have h' : ¬ o = c := fun hh => h hh.symm
      simp [addScore, lookupScore, h, h']
  | cons p rest ih =>
    obtain ⟨c', s'⟩ := p
    by_cases hcc : c' = c
    · subst hcc
      by_cases hco : c' = o
      · subst hco
        simp [addScore, lookupScore]
      · have hoc : ¬ o = c' := fun hh => hco hh.symm
        simp [addScore, lookupScore, hco, hoc]
    · by_cases hco : c' = o
      · subst hco
        simp [addScore, lookupScore, hcc]
      · simp [addScore, lookupScore, hcc, hco, ih]

theorem keysOf_addScore (m : List (String × Nat)) (c : String) (v : Nat) :
    keysOf (addScore m c v) =
      if c ∈ keysOf m then keysOf m else keysOf m ++ [c] := by
  induction m with
  | nil => simp [addScore, keysOf]
  | cons p rest ih =>
    obtain ⟨c', s'⟩ := p
    by_cases hcc : c' = c
    · subst hcc
      simp [addScore, keysOf]
    · have hcc' : ¬ c = c' := fun hh => hcc hh.symm
      by_cases hmem : c ∈ keysOf rest
      · simp only [keysOf, List.map_cons, List.mem_cons] at hmem ⊢
        simp only [keysOf] at ih
        simp [addScore, hcc, hcc', hmem, ih]
      · simp only [keysOf, List.map_cons, List.mem_cons] at hmem ⊢
        simp only [keysOf] at ih
        simp [addScore, hcc, hcc', hmem, ih]

theorem mem_keysOf_addScore (m : List (String × Nat)) (c : String) (v : Nat) (o : String) :
    o ∈ keysOf (addScore m c v) ↔ o ∈ keysOf m ∨ o = c := by
  rw [keysOf_addScore]
  by_cases hmem : c ∈ keysOf m
  · simp only [hmem, if_true]
    constructor
    · exact Or.inl
    · rintro (h | h)
      · exact h
      · exact h ▸ hmem
  · simp [hmem]

theorem nodup_keysOf_addScore (m : List (String × Nat)) (c : String) (v : Nat)
    (h : (keysOf m).Nodup) : (keysOf (addScore m c v)).Nodup := by
  rw [keysOf_addScore]
  by_cases hmem : c ∈ keysOf m
  · simpa [hmem] using h
  · simp [hmem, List.nodup_append, h]

theorem mem_assoc_iff : ∀ (m : List (String × Nat)), (keysOf m).Nodup →
    ∀ (o : String) (s : Nat), ((o, s) ∈ m ↔ o ∈ keysOf m ∧ s = lookupScore o m)
  | [], _, o, s => by simp [keysOf, lookupScore]
  | (c', s') :: rest, hnd, o, s => by
    rw [show keysOf ((c', s') :: rest) = c' :: keysOf rest from rfl] at hnd ⊢
    rw [List.nodup_cons] at hnd
    obtain ⟨hc_notin, hnd_rest⟩ := hnd
    by_cases hco : c' = o
    · subst hco
      have hnot : (c', s) ∉ rest := fun hmem =>
        hc_notin (List.mem_map_of_mem Prod.fst hmem)
      simp only [lookupScore, beq_self_eq_true, if_true, List.mem_cons]
      constructor
      · rintro (h | h)
        · injection h with h1 h2
          subst h2
          exact ⟨Or.inl trivial, rfl⟩
        · exact absurd h hnot
      · rintro ⟨-, hs⟩
        subst hs
        exact Or.inl rfl
    · have hoc : (c' == o) = false := by simp [hco]
      have hoc' : ¬ o = c' := fun hh => hco hh.symm
      simp only [lookupScore, hoc, Bool.false_eq_true, if_false, List.mem_cons]
      rw [mem_assoc_iff rest hnd_rest o s]
      constructor
      · rintro (h | h)
        · exact absurd (Prod.ext_iff.mp h).1.symm hco
        · exact ⟨Or.inr h.1, h.2⟩
      · rintro ⟨h1 | h1, h2⟩
        · exact absurd h1 hoc'
        · exact Or.inr ⟨h1, h2⟩

end Ordo

namespace Ordo

theorem lookupScore_foldl_pairs (len : Nat) :
    ∀ (pairs : List (Nat × String)) (m : List (String × Nat)) (o : String),
      lookupScore o (pairs.foldl (fun acc p => addScore acc p.2 (len - p.1)) m) =
        lookupScore o m + ((pairs.filter (fun p => p.2 == o)).map (fun p => len - p.1)).sum
  | [], m, o => by simp
  | q :: pairs, m, o => by
    rw [List.foldl_cons, lookupScore_foldl_pairs len pairs _ o, lookupScore_addScore]
    by_cases h : o = q.2
    · have h2 : (q.2 == o) = true := by simp [h.symm]
      simp only [List.filter_cons, h2, if_true, List.map_cons, List.sum_cons, h]
      simp
      omega
    · have h2 : (q.2 == o) = false := by
        simp only [beq_eq_false_iff_ne, ne_eq]
        exact fun hh => h hh.symm
      simp only [List.filter_cons, h2, Bool.false_eq_true, if_false, h]
      simp

theorem mem_keys_foldl_pairs (len : Nat) :
    ∀ (pairs : List (Nat × String)) (m : List (String × Nat)) (o : String),
      (o ∈ keysOf (pairs.foldl (fun acc p => addScore acc p.2 (len - p.1)) m) ↔
        o ∈ keysOf m ∨ ∃ p ∈ pairs, p.2 = o)
  | [], m, o => by simp
  | q :: pairs, m, o => by
    rw [List.foldl_cons, mem_keys_foldl_pairs len pairs _ o, mem_keysOf_addScore]
    constructor
    · rintro ((h | h) | h)
      · exact Or.inl h
      · exact Or.inr ⟨q, List.mem_cons_self .., h.symm⟩
      · obtain ⟨p, hp, hpo⟩ := h
        exact Or.inr ⟨p, List.mem_cons_of_mem _ hp, hpo⟩
    · rintro (h | ⟨p, hp, hpo⟩)
      · exact Or.inl (Or.inl h)
      · rcases List.mem_cons.mp hp with h1 | h1
        · subst h1
          exact Or.inl (Or.inr hpo.symm)
        · exact Or.inr ⟨p, h1, hpo⟩

theorem nodup_keys_foldl_pairs (len : Nat) :
    ∀ (pairs : List (Nat × String)) (m : List (String × Nat)),
      (keysOf m).Nodup →
      (keysOf (pairs.foldl (fun acc p => addScore acc p.2 (len - p.1)) m)).Nodup
  | [], _, h => h
  | q :: pairs, m, h =>
    nodup_keys_foldl_pairs len pairs _ (nodup_keysOf_addScore m q.2 (len - q.1) h)

theorem enumFrom_filter_not_mem (o : String) :
    ∀ (l : List String) (n : Nat), o ∉ l →
      (List.enumFrom n l).filter (fun p => p.2 == o) = []
  | [], _, _ => rfl
  | a :: l, n, h => by
    rw [List.mem_cons, not_or] at h
    obtain ⟨h1, h2⟩ := h
    have ha : (a == o) = false := by
      simp only [beq_eq_false_iff_ne, ne_eq]
      exact fun hh => h1 hh.symm
    rw [show List.enumFrom n (a :: l) = (n, a) :: List.enumFrom (n + 1) l from rfl]
    rw [List.filter_cons]
    simp only [ha, Bool.false_eq_true, if_false]
    exact enumFrom_filter_not_mem o l (n + 1) h2

theorem enumFrom_filter_mem (o : String) :
    ∀ (l : List String) (n : Nat), l.Nodup → o ∈ l →
      (List.enumFrom n l).filter (fun p => p.2 == o) = [(n + rankOf o l, o)]
  | [], _, _, h => absurd h (List.not_mem_nil o)
  | a :: l, n, hnd, h => by
    rw [List.nodup_cons] at hnd
    obtain ⟨ha_notin, hnd_l⟩ := hnd
    rw [show List.enumFrom n (a :: l) = (n, a) :: List.enumFrom (n + 1) l from rfl]
    by_cases hao : a = o
    · subst hao
      rw [List.filter_cons]
      have hempty : (List.enumFrom (n + 1) l).filter (fun p => p.2 == a) = [] :=
        enumFrom_filter_not_mem a l (n + 1) ha_notin
      simp [rankOf, hempty]
    · have ha : (a == o) = false := by
        simp only [beq_eq_false_iff_ne, ne_eq]
        exact hao
      have ho : o ∈ l := by
        rcases List.mem_cons.mp h with h1 | h1
        · exact absurd h1.symm hao
        · exact h1
      rw [List.filter_cons]
      simp only [ha, Bool.false_eq_true, if_false]
      rw [enumFrom_filter_mem o l (n + 1) hnd_l ho]
      have harith : n + 1 + rankOf o l = n + (rankOf o l + 1) := by omega
      simp [rankOf, ha, harith]

theorem exists_enumFrom_snd (o : String) :
    ∀ (l : List String) (n : Nat), (∃ p ∈ List.enumFrom n l, p.2 = o) ↔ o ∈ l
  | [], n => by simp
  | a :: l, n => by
    rw [show List.enumFrom n (a :: l) = (n, a) :: List.enumFrom (n + 1) l from rfl]
    simp only [List.mem_cons]
    constructor
    · rintro ⟨p, hp | hp, hpo⟩
      · subst hp
        exact Or.inl hpo.symm
      · exact Or.inr ((exists_enumFrom_snd o l (n + 1)).mp ⟨p, hp, hpo⟩)
    · rintro (h | h)
      · exact ⟨(n, a), Or.inl rfl, h.symm⟩
      · obtain ⟨p, hp, hpo⟩ := (exists_enumFrom_snd o l (n + 1)).mpr h
        exact ⟨p, Or.inr hp, hpo⟩

theorem lookupScore_scoreBallot (m : List (String × Nat)) (b : List String) (o : String)
    (hnd : b.Nodup) :
    lookupScore o (scoreBallot m b) =
      lookupScore o m + (if o ∈ b then b.length - rankOf o b else 0) := by
  rw [show scoreBallot m b =
    (List.enumFrom 0 b).foldl (fun acc p => addScore acc p.2 (b.length - p.1)) m from rfl]
  rw [lookupScore_foldl_pairs]
  by_cases h : o ∈ b
  · rw [enumFrom_filter_mem o b 0 hnd h]
    simp [h]
  · rw [enumFrom_filter_not_mem o b 0 h]
    simp [h]

theorem mem_keys_scoreBallot (m : List (String × Nat)) (b : List String) (o : String) :
    o ∈ keysOf (scoreBallot m b) ↔ o ∈ keysOf m ∨ o ∈ b := by
  rw [show scoreBallot m b =
    (List.enumFrom 0 b).foldl (fun acc p => addScore acc p.2 (b.length - p.1)) m from rfl]
  rw [mem_keys_foldl_pairs, exists_enumFrom_snd]

theorem nodup_keys_scoreBallot (m : List (String × Nat)) (b : List String)
    (h : (keysOf m).Nodup) : (keysOf (scoreBallot m b)).Nodup :=
  nodup_keys_foldl_pairs b.length (List.enumFrom 0 b) m h

theorem lookupScore_foldl_ballots (o : String) :
    ∀ (ballots : List (List String)) (m : List (String × Nat)),
      (∀ b ∈ ballots, b.Nodup) →
      lookupScore o (ballots.foldl scoreBallot m) =
        lookupScore o m +
          (ballots.map (fun b => if o ∈ b then b.length - rankOf o b else 0)).sum
  | [], m, _ => by simp
  | b :: ballots, m, h => by
    rw [List.foldl_cons,
      lookupScore_foldl_ballots o ballots _ (fun x hx => h x (List.mem_cons_of_mem _ hx)),
      lookupScore_scoreBallot m b o (h b (List.mem_cons_self ..)),
      List.map_cons, List.sum_cons, ← Nat.add_assoc]

theorem mem_keys_foldl_ballots (o : String) :
    ∀ (ballots : List (List String)) (m : List (String × Nat)),
      (o ∈ keysOf (ballots.foldl scoreBallot m) ↔ o ∈ keysOf m ∨ ∃ b ∈ ballots, o ∈ b)
  | [], m => by simp
  | b :: ballots, m => by
    rw [List.foldl_cons, mem_keys_foldl_ballots o ballots _, mem_keys_scoreBallot]
    constructor
    · rintro ((h | h) | h)
      · exact Or.inl h
      · exact Or.inr ⟨b, List.mem_cons_self .., h⟩
      · obtain ⟨x, hx, hxo⟩ := h
        exact Or.inr ⟨x, List.mem_cons_of_mem _ hx, hxo⟩
    · rintro (h | ⟨x, hx, hxo⟩)
      · exact Or.inl (Or.inl h)
      · rcases List.mem_cons.mp hx with h1 | h1
        · subst h1
          exact Or.inl (Or.inr hxo)
        · exact Or.inr ⟨x, h1, hxo⟩

theorem nodup_keys_foldl_ballots :
    ∀ (ballots : List (List String)) (m : List (String × Nat)),
      (keysOf m).Nodup → (keysOf (ballots.foldl scoreBallot m)).Nodup
  | [], _, h => h
  | b :: ballots, m, h =>
    nodup_keys_foldl_ballots ballots _ (nodup_keys_scoreBallot m b h)

theorem filter_orderedInsert_score (a : String × Nat) (k : Nat) :
    ∀ l : List (String × Nat),
      (List.orderedInsert scoreLe a l).filter (fun p => p.2 == k) =
        if a.2 == k then a :: l.filter (fun p => p.2 == k)
        else l.filter (fun p => p.2 == k)
  | [] => by simp [List.filter_cons]
  | b :: t => by
    rw [List.orderedInsert]
    by_cases hab : scoreLe a b
    · rw [if_pos hab]
      simp [List.filter_cons]
    · rw [if_neg hab]
      have hab' : ¬ a.2 ≤ b.2 := hab
      have hlt : b.2 < a.2 := Nat.lt_of_not_le hab'
      have hne : a.2 ≠ b.2 := fun hh => absurd (hh ▸ hlt) (lt_irrefl _)
      rw [List.filter_cons, filter_orderedInsert_score a k t, List.filter_cons]
      by_cases hbk : b.2 = k
      · have hak : ¬ a.2 = k := fun hh => hne (hh.trans hbk.symm)
        simp [hbk, hak]
      · by_cases hak : a.2 = k
        · simp [hbk, hak]
        · simp [hbk, hak]

theorem filter_insertionSort_score (k : Nat) :
    ∀ l : List (String × Nat),
      (List.insertionSort scoreLe l).filter (fun p => p.2 == k) =
        l.filter (fun p => p.2 == k)
  | [] => rfl
  | a :: l => by
    rw [List.insertionSort, filter_orderedInsert_score a k, filter_insertionSort_score k l,
      List.filter_cons]

theorem mem_tallyScores_iff (ballots : List (List String)) (x : String × Nat) :
    x ∈ tallyScores ballots ↔ x ∈ accumScores ballots := by
  rw [tallyScores, List.mem_reverse]
  exact (List.perm_insertionSort scoreLe _).mem_iff

end Ordo

namespace Ordo

theorem lookupScore_nil (o : String) : lookupScore o [] = 0 := rfl

/-- Claim C1, counterexample.  On the spec's own example
`ballots = [[A,B,C],[B,A,C]]` the tally is `[B(5), A(5), C(2)]`, not the
claimed `[A(5), B(5), C(2)]`: the A/B tie comes out in reverse first-seen
order because the source stable-sorts ascending and then reverses the
whole vector. -/
theorem C1_tie_break_counterexample :
    tallyScores [["A", "B", "C"], ["B", "A", "C"]] = [("B", 5), ("A", 5), ("C", 2)] ∧
    tallyScores [["A", "B", "C"], ["B", "A", "C"]] ≠ [("A", 5), ("B", 5), ("C", 2)] :=
  ⟨by decide, by decide⟩

/-- Claim C1, amended.  For ballots that are permutations of the room's
options: every tally entry is an option occurring in some ballot with score
equal to the sum over all ballots of `K - rank` (`K` the option count,
`rank` the 0-indexed position); the output is sorted descending by score;
and within each equal-score class the entries appear in the REVERSE of the
accumulation map's first-seen order (ascending stable sort followed by a
full reversal), not in first-seen order as the spec claims.  On the real
Rust `HashMap` the accumulation order is moreover unspecified, so the tie
order is not deterministic at all; the association-list model used here is
the most favourable deterministic reading. -/
theorem C1_tally_scores_sorted_ties_reversed (options : List String)
    (ballots : List (List String)) (hnd : options.Nodup)
    (hperm : ∀ b ∈ ballots, List.Perm b options) :
    (∀ o score, ((o, score) ∈ tallyScores ballots ↔
      (ballots ≠ [] ∧ o ∈ options ∧
        score = (ballots.map (fun b => options.length - rankOf o b)).sum))) ∧
    List.Sorted (fun a b : String × Nat => b.2 ≤ a.2) (tallyScores ballots) ∧
    (∀ k : Nat, (tallyScores ballots).filter (fun p => p.2 == k) =
      ((accumScores ballots).filter (fun p => p.2 == k)).reverse) := by
  have hbnd : ∀ b ∈ ballots, b.Nodup := fun b hb => ((hperm b hb).nodup_iff).mpr hnd
  have key : ∀ o : String, o ∈ options →
      ballots.map (fun b => if o ∈ b then b.length - rankOf o b else 0) =
        ballots.map (fun b => options.length - rankOf o b) := by
    intro o ho
    apply List.map_congr_left
    intro b' hb'
    rw [if_pos ((hperm b' hb').mem_iff.mpr ho), (hperm b' hb').length_eq]
  refine ⟨?_, ?_, ?_⟩
  · intro o score
    rw [mem_tallyScores_iff]
    have hkeys_nd : (keysOf (accumScores ballots)).Nodup :=
      nodup_keys_foldl_ballots ballots [] (by simp [keysOf])
    rw [mem_assoc_iff _ hkeys_nd]
    rw [show accumScores ballots = ballots.foldl scoreBallot [] from rfl]
    rw [mem_keys_foldl_ballots, lookupScore_foldl_ballots o ballots [] hbnd,
      lookupScore_nil, Nat.zero_add]
    constructor
    · rintro ⟨hk | hk, hs⟩
      · simp [keysOf] at hk
      · obtain ⟨b, hb, hob⟩ := hk
        have ho : o ∈ options := (hperm b hb).mem_iff.mp hob
        refine ⟨List.ne_nil_of_mem hb, ho, ?_⟩
        rw [hs, key o ho]
    · rintro ⟨hne, ho, hs⟩
      obtain ⟨b0, hb0⟩ := List.exists_mem_of_ne_nil ballots hne
      have hob0 : o ∈ b0 := (hperm b0 hb0).mem_iff.mpr ho
      refine ⟨Or.inr ⟨b0, hb0, hob0⟩, ?_⟩
      rw [hs, key o ho]
  · exact List.pairwise_reverse.mpr
      ((List.sorted_insertionSort scoreLe _).imp (fun h => h))
  · intro k
    rw [tallyScores, List.filter_reverse, filter_insertionSort_score]

/-- Claim C1, witness: the amended theorem instantiated at one concrete
ballot list. -/
theorem C1_tally_witness :
    List.Sorted (fun a b : String × Nat => b.2 ≤ a.2) (tallyScores [["B", "A"]]) :=
  (C1_tally_scores_sorted_ties_reversed ["A", "B"] [["B", "A"]] (by decide) (by decide)).2.1

/-- Claim C6, counterexample.  With zero submitted ballots the tally of
`old_rooms::end_vote` is the empty list: the room's options are never
consulted, so option `A` of a room with options `[A, B]` does not appear
with score 0 as the claim requires. -/
theorem C6_zero_ballots_counterexample :
    tallyScores [] = [] ∧ ("A", 0) ∉ tallyScores [] :=
  ⟨rfl, by decide⟩

/-- Claim C6, amended.  Zero submitted ballots produce an empty tally: no
(option, score) pair whatsoever is listed, in particular the room's options
do not appear with score 0. -/
theorem C6_zero_ballots_empty_tally (o : String) (s : Nat) : (o, s) ∉ tallyScores [] := by
  intro h
  rw [mem_tallyScores_iff] at h
  exact absurd h (List.not_mem_nil _)

end Ordo

namespace Ordo

theorem find?_id_map (g : Voter → Voter) (hg : ∀ v, (g v).id = v.id) :
    ∀ (l : List Voter) (i : Int),
      (l.map g).find? (fun v => v.id == i) = (l.find? (fun v => v.id == i)).map g
  | [], _ => rfl
  | v :: t, i => by
    have hpg : ((g v).id == i) = (v.id == i) := by rw [hg]
    cases hvi : (v.id == i) with
    | true => simp [List.find?, hpg, hvi]
    | false => simp [List.find?, hpg, hvi, find?_id_map g hg t i]

/-- Claim C2, counterexample.  A voter whose `approved` flag is false, with
a matching `voter_code` and a valid permutation ballot, successfully submits
in a Voting room: the ballot is stored and `NewVote`/`NewVoteCount` are
published.  `voters::vote` never reads the `approved` column it fetches. -/
theorem C2_counterexample :
    vote exStoreVoting 10 "v" ["B", "A"] true =
      .ok ({ rooms := [exRoomVoting],
             voters := [{ exVoterUnapproved with options := some ["B", "A"] }] },
        [(1, .NewVote 10), (1, .NewVoteCount 1)]) ∧
    exVoterUnapproved.approved = false := by
  exact ⟨by decide, rfl⟩

/-- Claim C2, amended.  During Voting, ballot submission is gated only by
the voter secret, the room's Voting status and the permutation check; the
`approved` flag is not consulted, so any voter of the room — approved or
not — stores a ballot. -/
theorem C2_vote_ignores_approved (s : Store) (voter : Voter) (room : Room)
    (body : List String)
    (hv : findVoter s voter.id = some voter)
    (hr : findVotingRoom s voter.room_id = some room)
    (hopts : sortStrings body = room.options) :
    ∃ s' events, vote s voter.id voter.voter_code body true = .ok (s', events) ∧
      findVoter s' voter.id = some { voter with options := some body } := by
  have hrun : vote s voter.id voter.voter_code body true =
      .ok (setBallot s voter.id body,
        [(voter.room_id, .NewVote voter.id),
         (voter.room_id, .NewVoteCount (countBallots (setBallot s voter.id body) voter.room_id))]) := by
    simp [vote, hv, hr, hopts]
  refine ⟨_, _, hrun, ?_⟩
  have hg : ∀ v : Voter,
      ((fun v => if v.id == voter.id then { v with options := some body } else v) v).id = v.id := by
    intro v
    by_cases h : v.id = voter.id <;> simp [h]
  simp only [findVoter, setBallot]
  rw [find?_id_map _ hg]
  simp only [findVoter] at hv
  rw [hv]
  simp

/-- Claim C2, witness: the amended theorem instantiated at a concrete store
whose single voter is unapproved. -/
theorem C2_vote_ignores_approved_witness :
    ∃ s' events, vote exStoreVoting 10 "v" ["B", "A"] true = .ok (s', events) ∧
      findVoter s' 10 = some { exVoterUnapproved with options := some ["B", "A"] } :=
  C2_vote_ignores_approved exStoreVoting exVoterUnapproved exRoomVoting ["B", "A"]
    (by decide) (by decide) (by decide)

/-- Claim C3, code bug.  When the `UPDATE new_voters SET options` write
fails (`update_succeeds = false`), `voters::vote` still returns the success
response and still publishes `NewVote` (and a `NewVoteCount` computed over
the unchanged store): the handler builds the `InternalServerError`
rejection in `map_err` but discards it with `let _ = ...` instead of `?`. -/
theorem C3_store_failure_swallowed :
    vote exStoreVoting 10 "v" ["B", "A"] false =
      .ok (exStoreVoting, [(1, .NewVote 10), (1, .NewVoteCount 0)]) := by decide

end Ordo

namespace Ordo

/-- Claim C4, counterexample.  Joining a room whose status is Voting (1)
succeeds and creates a voter record: the `join_room` POST handler looks the
room up by id with no status filter, so a non-Open room does not produce
NotFoundError. -/
theorem C4_counterexample :
    join_room exStoreVotingNoVoters 1 10 "v" =
      .ok (exStoreVoting, [(1, .NewVoterCount 1), (1, .NewVoter 10)]) ∧
    exRoomVoting.status = 1 := by
  exact ⟨by decide, rfl⟩

/-- Claim C4, amended.  `join_room` requires only that the room row exist:
for a room of any status the join succeeds and appends an unapproved voter;
only an absent room fails, and that failure is surfaced as the generic
internal failure (500 UNHANDLED_REJECTION), not as NotFound. -/
theorem C4_join_ignores_status (s : Store) (room_id vid : Int) (code : String) :
    (∀ room, findRoom s room_id = some room →
      join_room s room_id vid code =
        .ok (addVoter s (newVoter vid room_id code),
          [(room_id, .NewVoterCount (countVoters (addVoter s (newVoter vid room_id code)) room_id)),
           (room_id, .NewVoter vid)])) ∧
    (findRoom s room_id = none →
      join_room s room_id vid code = .error .InternalServerError ∧
      handle_rejection .InternalServerError = (500, "UNHANDLED_REJECTION") ∧
      handle_rejection .InternalServerError ≠ handle_rejection .NotFound) := by
  constructor
  · intro room hroom
    simp [join_room, hroom]
  · intro hnone
    exact ⟨by simp [join_room, hnone], rfl, by decide⟩

/-- Claim C4, witness: the amended theorem instantiated at a store whose
room is in Voting status. -/
theorem C4_join_ignores_status_witness :
    join_room exStoreVotingNoVoters 1 10 "v" =
      .ok (addVoter exStoreVotingNoVoters (newVoter 10 1 "v"),
        [(1, .NewVoterCount (countVoters (addVoter exStoreVotingNoVoters (newVoter 10 1 "v")) 1)),
         (1, .NewVoter 10)]) :=
  (C4_join_ignores_status exStoreVotingNoVoters 1 10 "v").1 exRoomVoting (by decide)

/-- Claim C5, counterexample.  Starting a Voting-status room with the
correct secret yields `InternalServerError`, surfaced as
`500 UNHANDLED_REJECTION`; starting an Open room with a wrong secret yields
`NotAnAdmin`, surfaced as `400 NOT_AN_ADMIN`.  The two failures are
distinguishable, and neither is surfaced as NotFoundError (404). -/
theorem C5_surface_counterexample :
    start_vote exStoreVoting 1 "adm" = .error .InternalServerError ∧
    start_vote exStoreOpen 1 "bad" = .error .NotAnAdmin ∧
    handle_rejection .InternalServerError = (500, "UNHANDLED_REJECTION") ∧
    handle_rejection .NotAnAdmin = (400, "NOT_AN_ADMIN") ∧
    handle_rejection .InternalServerError ≠ handle_rejection .NotAnAdmin ∧
    handle_rejection .NotFound = (404, "NOT_FOUND") := by
  refine ⟨by decide, by decide, rfl, rfl, by decide, rfl⟩

/-- Claim C5, amended.  `start_vote` fails with `InternalServerError` when
no row matches `id AND status = 0`, and with `NotAnAdmin` when the row
matches but the secret does not; `handle_rejection` surfaces these as
`500 UNHANDLED_REJECTION` and `400 NOT_AN_ADMIN` respectively — two
distinguishable responses, neither equal to the 404 NOT_FOUND surface. -/
theorem C5_start_failures_distinguishable (s : Store) (room_id : Int) (code : String) :
    (findOpenRoom s room_id = none → start_vote s room_id code = .error .InternalServerError) ∧
    (∀ room, findOpenRoom s room_id = some room → code ≠ room.admin_code →
      start_vote s room_id code = .error .NotAnAdmin) ∧
    handle_rejection .InternalServerError = (500, "UNHANDLED_REJECTION") ∧
    handle_rejection .NotAnAdmin = (400, "NOT_AN_ADMIN") ∧
    handle_rejection .InternalServerError ≠ handle_rejection .NotAnAdmin ∧
    handle_rejection .InternalServerError ≠ handle_rejection .NotFound ∧
    handle_rejection .NotAnAdmin ≠ handle_rejection .NotFound := by
  refine ⟨?_, ?_, rfl, rfl, by decide, by decide, by decide⟩
  · intro h
    simp [start_vote, h]
  · intro room h hne
    simp [start_vote, h, hne]

/-- Claim C5, witness: the amended theorem instantiated at a Voting-status
room with the correct admin secret. -/
theorem C5_start_failures_witness :
    start_vote exStoreVoting 1 "adm" = .error .InternalServerError :=
  (C5_start_failures_distinguishable exStoreVoting 1 "adm").1 (by decide)

/-- Claim C7, counterexample.  Running the expiry action for room 1 deletes
the room and its voters but returns the channel registry unchanged: the
room's entry `1` is still present, so the EventChannel is not torn down and
subscriber streams are not terminated. -/
theorem C7_channel_counterexample :
    expire_action exStoreVoting [1] 1 = ({ rooms := [], voters := [] }, [1]) ∧
    1 ∈ (expire_action exStoreVoting [1] 1).2 := by
  exact ⟨by decide, by decide⟩

/-- Claim C7, amended.  `create_room` schedules exactly one expiry action
with the fixed 3600-second TTL for the new room, and that action deletes
the Room and all its Voters irrespective of the store's state (hence of the
room's status) while leaving every other row intact — but it never touches
the `Broadcasters` channel registry, so no EventChannel teardown happens
and subscriber streams are not terminated by expiry. -/
theorem C7_expiry_no_channel_teardown (s : Store) (name : String) (options : List String)
    (rid : Int) (code : String) (res : CreateRoomResult)
    (h : create_room s name options rid code = .ok res) :
    res.expiry_delay_secs = 3600 ∧
    res.expiry_room_id = rid ∧
    ∀ (s2 : Store) (ch : Channels),
      (expire_action s2 ch rid).2 = ch ∧
      (∀ r ∈ (expire_action s2 ch rid).1.rooms, r.id ≠ rid) ∧
      (∀ v ∈ (expire_action s2 ch rid).1.voters, v.room_id ≠ rid) ∧
      (∀ r ∈ s2.rooms, r.id ≠ rid → r ∈ (expire_action s2 ch rid).1.rooms) ∧
      (∀ v ∈ s2.voters, v.room_id ≠ rid → v ∈ (expire_action s2 ch rid).1.voters) := by
  have hres : res.expiry_delay_secs = 3600 ∧ res.expiry_room_id = rid := by
    simp only [create_room] at h
    split_ifs at h
    injection h with h'
    rw [← h']
    exact ⟨rfl, rfl⟩
  refine ⟨hres.1, hres.2, ?_⟩
  intro s2 ch
  refine ⟨rfl, ?_, ?_, ?_, ?_⟩
  · intro r hr
    have := (List.mem_filter.mp hr).2
    simpa using this
  · intro v hv
    have := (List.mem_filter.mp hv).2
    simpa using this
  · intro r hr hne
    exact List.mem_filter.mpr ⟨hr, by simpa using hne⟩
  · intro v hv hne
    exact List.mem_filter.mpr ⟨hv, by simpa using hne⟩

/-- Claim C7, witness: the amended theorem instantiated at a concrete
creation, then applied to a concrete store and channel registry. -/
theorem C7_expiry_witness :
    (expire_action exStoreVoting [5] 1).2 = [5] ∧
    ∀ r ∈ (expire_action exStoreVoting [5] 1).1.rooms, r.id ≠ 1 :=
  have h := C7_expiry_no_channel_teardown exStoreOpen "x" ["A", "B"] 1 "c" exCreateRes (by decide)
  ⟨(h.2.2 exStoreVoting [5]).1, (h.2.2 exStoreVoting [5]).2.1⟩

end Ordo

namespace Ordo

/-- Claim C8, confirmed.  For a room in Voting status (with its options
stored in the canonical sorted form `create_room` guarantees) and a voter
presenting the matching secret, the ballot is rejected with the
option-mismatch error `UnknownOptions` exactly when its elements are not a
permutation of the room's options, and every permutation, in any order, is
accepted. -/
theorem C8_ballot_permutation_check (s : Store) (voter : Voter) (room : Room)
    (body : List String) (ok : Bool)
    (hv : findVoter s voter.id = some voter)
    (hr : findVotingRoom s voter.room_id = some room)
    (hsorted : List.Sorted strLe room.options) :
    (vote s voter.id voter.voter_code body ok = .error .UnknownOptions ↔
      ¬ List.Perm body room.options) ∧
    (List.Perm body room.options →
      ∃ s' events, vote s voter.id voter.voter_code body ok = .ok (s', events)) := by
  have hiff := sortStrings_eq_iff (l := body) hsorted
  constructor
  · by_cases hpe : List.Perm body room.options
    · have heq : sortStrings body = room.options := hiff.mpr hpe
      simp [vote, hv, hr, heq, hpe]
    · have hne : room.options ≠ sortStrings body := fun hh => hpe (hiff.mp hh.symm)
      simp [vote, hv, hr, hne, hpe]
  · intro hpe
    have heq : sortStrings body = room.options := hiff.mpr hpe
    refine ⟨if ok = true then setBallot s voter.id body else s,
      [(voter.room_id, .NewVote voter.id),
       (voter.room_id, .NewVoteCount (countBallots
         (if ok = true then setBallot s voter.id body else s) voter.room_id))], ?_⟩
    simp [vote, hv, hr, heq]

/-- Claim C8, witness: the theorem instantiated at a concrete Voting room
and ballot. -/
theorem C8_ballot_permutation_check_witness :
    (vote exStoreVoting 10 "v" ["B", "A"] true = .error .UnknownOptions ↔
      ¬ List.Perm ["B", "A"] ["A", "B"]) ∧
    (List.Perm ["B", "A"] ["A", "B"] →
      ∃ s' events, vote exStoreVoting 10 "v" ["B", "A"] true = .ok (s', events)) :=
  C8_ballot_permutation_check exStoreVoting exVoterUnapproved exRoomVoting ["B", "A"] true
    (by decide) (by decide) (by decide)

/-- Claim C9, counterexample.  At the zero-to-one transition of the
approved count, the complete list of events published by `approve_voter`
is `[VoterApproved]` — no `VoteStartable` event exists in the source's
`RoomEvents` and none is published; and re-approving the already-approved
voter leaves the store unchanged but publishes `VoterApproved` again. -/
theorem C9_counterexample :
    approvedCount exStoreApprove0 1 = 0 ∧
    approve_voter exStoreApprove0 10 "adm" =
      .ok (exStoreApprove1, [(1, .VoterApproved 10)]) ∧
    approvedCount exStoreApprove1 1 = 1 ∧
    approve_voter exStoreApprove1 10 "adm" =
      .ok (exStoreApprove1, [(1, .VoterApproved 10)]) := by
  refine ⟨rfl, by decide, rfl, by decide⟩

/-- Claim C9, amended.  A successful `approve_voter` is idempotent on the
store — repeating it returns the identical store — and every successful
call (first approval or re-approval alike) publishes exactly one event, a
`VoterApproved`; in particular no `VoteStartable` event is ever published,
at the zero-to-one approved-count transition or otherwise, and the
`VoterApproved` notification is re-fired on every re-approval. -/
theorem C9_approve_idempotent_no_edge_event (s : Store) (vid : Int) (code : String)
    (s' : Store) (events : List (Int × RoomEvents))
    (h : approve_voter s vid code = .ok (s', events)) :
    approve_voter s' vid code = .ok (s', events) ∧
    (∃ rid : Int, events = [(rid, .VoterApproved vid)]) := by
  unfold approve_voter at h
  cases hb : (findVoter s vid).bind (fun v => findRoom s v.room_id) with
  | none =>
    rw [hb] at h
    cases h
  | some room =>
    rw [hb] at h
    have h2 : (if code ≠ room.admin_code then
          (Except.error Rejection.NotAnAdmin : Except Rejection (Store × List (Int × RoomEvents)))
        else .ok (setApproved s vid, [(room.id, .VoterApproved vid)])) = .ok (s', events) := h
    by_cases hcode : code ≠ room.admin_code
    · rw [if_pos hcode] at h2
      cases h2
    · rw [if_neg hcode] at h2
      injection h2 with h'
      injection h' with hs he
      subst hs
      subst he
      refine ⟨?_, room.id, rfl⟩
      obtain ⟨v, hv, hroom⟩ := Option.bind_eq_some.mp hb
      have hg : ∀ w : Voter,
          ((fun w => if w.id == vid then { w with approved := true } else w) w).id = w.id := by
        intro w
        by_cases hw : w.id = vid <;> simp [hw]
      have hfv' : findVoter (setApproved s vid) vid =
          some (if v.id == vid then { v with approved := true } else v) := by
        simp only [findVoter, setApproved]
        rw [find?_id_map _ hg]
        simp only [findVoter] at hv
        rw [hv]
        rfl
      have hvid : v.id = vid := by
        simp only [findVoter] at hv
        have := List.find?_some hv
        simpa using this
      have hfv'' : findVoter (setApproved s vid) vid = some { v with approved := true } := by
        rw [hfv']
        simp [hvid]
      have hroom' : findRoom (setApproved s vid) v.room_id = some room := hroom
      unfold approve_voter
      have hbind : (findVoter (setApproved s vid) vid).bind
          (fun w => findRoom (setApproved s vid) w.room_id) = some room := by
        rw [hfv'']
        exact hroom'
      have hmap : setApproved (setApproved s vid) vid = setApproved s vid := by
        simp only [setApproved, List.map_map]
        congr 1
        apply List.map_congr_left
        intro w _
        by_cases hw : w.id = vid
        · simp [Function.comp, hw]
        · simp [Function.comp, hw]
      rw [hbind]
      show (if code ≠ room.admin_code then
          (Except.error Rejection.NotAnAdmin : Except Rejection (Store × List (Int × RoomEvents)))
        else .ok (setApproved (setApproved s vid) vid, [(room.id, .VoterApproved vid)])) =
        .ok (setApproved s vid, [(room.id, .VoterApproved vid)])
      rw [if_neg hcode, hmap]

/-- Claim C9, witness: the amended theorem instantiated at a concrete
approval, showing the repeated call returns the same store and events. -/
theorem C9_approve_witness :
    approve_voter exStoreApprove1 10 "adm" =
      .ok (exStoreApprove1, [(1, .VoterApproved 10)]) :=
  (C9_approve_idempotent_no_edge_event exStoreApprove0 10 "adm" exStoreApprove1
    [(1, .VoterApproved 10)] (by decide)).1

/-- Claim C10, counterexample.  A subscriber presenting a matching admin
secret AND a matching voter secret is classified as both an admin and a
voter; every informative projection arm requires one of the two to be
`None`, so such a subscriber receives only the `ping` heartbeat — not the
Admin-role payloads the claim promises regardless of other credentials. -/
theorem C10_dual_credential_counterexample :
    classify_admin exStoreDual 1 (some "adm") = .ok (some 1) ∧
    classify_voter exStoreDual (some "v") = .ok (some 2) ∧
    project (.NewVoter 5) (some 1) (some 2) = names.PING_EVENT ∧
    project (.NewVoter 5) (some 1) (some 2) ≠ names.NEW_VOTER_EVENT := by
  refine ⟨by decide, by decide, rfl, by decide⟩

/-- Claim C10, amended.  The subscriber is classified by an independent
pair (admin match?, voter match?): a missing cookie classifies as `none`.
Admin payloads are delivered only to `(some _, none)` subscribers and voter
payloads only to `(none, some _)`; both-`none` and both-`some` subscribers
receive only the `ping` heartbeat, as do all (event, role) pairs without a
listed arm. -/
theorem C10_projection_table :
    (∀ e, project e none none = names.PING_EVENT) ∧
    (∀ e a v, project e (some a) (some v) = names.PING_EVENT) ∧
    (∀ s rid, classify_admin s rid none = .ok none) ∧
    (∀ s, classify_voter s none = .ok none) ∧
    (∀ c a, project (.NewVoterCount c) (some a) none = names.VOTER_COUNT_EVENT) ∧
    (∀ c v, project (.NewVoterCount c) none (some v) = names.VOTER_COUNT_EVENT) ∧
    (∀ i a, project (.NewVoter i) (some a) none = names.NEW_VOTER_EVENT) ∧
    (∀ i a, project (.VoterApproved i) (some a) none = names.voter_approved_event i) ∧
    (∀ i v, project (.VoterApproved i) none (some v) =
      if i == v then names.voter_approved_event i else names.PING_EVENT) ∧
    (∀ os v, project (.VoteStarted os) none (some v) = names.VOTE_STARTED_EVENT) ∧
    (∀ os a, project (.VoteStarted os) (some a) none = names.PING_EVENT) ∧
    (∀ i a, project (.NewVote i) (some a) none = names.vote_event i) ∧
    (∀ i v, project (.NewVote i) none (some v) = names.PING_EVENT) ∧
    (∀ c a, project (.NewVoteCount c) (some a) none = names.VOTE_COUNT_EVENT) ∧
    (∀ c v, project (.NewVoteCount c) none (some v) = names.PING_EVENT) ∧
    (∀ a, project .VoteEnded (some a) none = names.PING_EVENT) ∧
    (∀ v, project .VoteEnded none (some v) = names.PING_EVENT) := by
  refine ⟨?_, ?_, ?_, ?_, ?_, ?_, ?_, ?_, ?_, ?_, ?_, ?_, ?_, ?_, ?_, ?_, ?_⟩
  · intro e
    cases e <;> rfl
  · intro e a v
    cases e <;> rfl
  · intro s rid
    rfl
  · intro s
    rfl
  all_goals (intros; rfl)

end Ordo
